import Mathlib

/-!
Verification of the agent resolution loop, feature/tool registry, tool
executor and template interpolator of the RAAHI conversational backend.

The TypeScript sources are shallowly embedded: pure functions become Lean
functions, in-place mutation of the session / registry / response objects
becomes explicit state passing, promise rejection becomes `Except JsError`,
and external effects (the language model stream, the knowledge-base search,
the feature store, HTTP fetch, registered builtin handlers) become explicit
function parameters (oracles).  Timestamp fields (`createdAt`/`updatedAt`)
are omitted from the session model: they are written by the store layer and
never read by any code under verification.
-/

namespace Raahi

/-- Opaque JSON payloads (tool parameter schemas, data schemas) are modelled
by their serialized text: no verified code inspects their structure. -/
abbrev Json := String

/-- One-level JavaScript values appearing as tool-call argument values:
the sources use `Record<string, string>` argument records except for a few
object-valued arguments (`predefindData`, `action_data`, `data`). -/
inductive JsVal where
  | str (s : String)
  | obj (fields : List (String × String))
deriving DecidableEq, Repr

/-- Argument record of a function call (`Record<string, unknown>`). -/
abbrev Args := List (String × JsVal)

/-- Object payloads (`Record<string, unknown>` narrowed to string fields). -/
abbrev PData := List (String × String)

/-- The cast `args[k] as string` with `?? `-fallback on a missing key.
A present-but-object value passes through an unchecked TypeScript cast; that
corner is unreachable in every theorem below and is rendered by the string
JavaScript would print for it. -/
def argS (args : Args) (k : String) : Option String :=
  match args.lookup k with
  | some (JsVal.str s) => some s
  | some (JsVal.obj _) => some "[object Object]"
  | none => none

/-- The cast `args[k] as Record<string, unknown>` with `?? \x7b\x7d` fallback. -/
def argObj (args : Args) (k : String) : PData :=
  match args.lookup k with
  | some (JsVal.obj o) => o
  | _ => []

-- ─── Template interpolation (src/src/executor.ts, interpolate) ───

/-- The character `\x7b`. -/
def openBrace : Char := Char.ofNat 123

/-- The character `\x7d`. -/
def closeBrace : Char := Char.ofNat 125

/-- Value substituted for one matched token of the regex
`\x7b\x7b(ENV\.)?([^\x7d]+)\x7d\x7d`: the `ENV.` group is captured exactly when the
run starts with `ENV.` and at least one more character follows (otherwise
the regex backtracks and the whole run is the key); a missing variable
yields the empty string (`?? ""`). -/
def tokenValue (env vars : String → Option String) (run : List Char) : List Char :=
  if run.take 4 = ['E', 'N', 'V', '.'] ∧ run.drop 4 ≠ [] then
    ((env (String.mk (run.drop 4))).getD "").toList
  else
    ((vars (String.mk run)).getD "").toList

/-- Left-to-right scan of `String.prototype.replace` with the global regex
`\x7b\x7b(ENV\.)?([^\x7d]+)\x7d\x7d`: at a position starting with two open braces, the
greedy `[^\x7d]+` can only match the maximal run of non-close-brace characters,
and the match succeeds exactly when that run is nonempty and followed by two
close braces; otherwise the scan moves one character forward.  The fuel
argument starts at the length of the input and each step consumes at least
one character, so fuel never runs out. -/
def interpGo (env vars : String → Option String) : Nat → List Char → List Char
  | 0, s => s
  | _ + 1, [] => []
  | fuel + 1, c :: rest =>
    if c = openBrace ∧ rest.head? = some openBrace then
      let body := rest.tail
      let run := body.takeWhile (fun ch => ch != closeBrace)
      let after := body.dropWhile (fun ch => ch != closeBrace)
      if run ≠ [] ∧ after.take 2 = [closeBrace, closeBrace] then
        tokenValue env vars run ++ interpGo env vars fuel (after.drop 2)
      else
        c :: interpGo env vars fuel rest
    else
      c :: interpGo env vars fuel rest

/-- Interpolation on character lists. -/
def interpolateL (env vars : String → Option String) (s : List Char) : List Char :=
  interpGo env vars s.length s

/-- `interpolate(template, vars)` from src/src/executor.ts; `env` models
`process.env`. -/
def interpolate (env vars : String → Option String) (template : String) : String :=
  String.mk (interpolateL env vars template.toList)

-- ─── Data model (src/src/types.ts and its current revision src/unnamed/part_016) ───

/-- A knowledge-base entry: an info fact or a feature pointer. -/
inductive KBEntry where
  | info (desc : String)
  | feature (desc : String) (featureName : String) (tools : List String)
deriving DecidableEq, Repr

/-- One `\x7buiAction, intent, audioKey?\x7d` pair of a feature. -/
structure ActionMapping where
  uiAction : String
  intent : String
  audioKey : Option String := none
deriving DecidableEq, Repr

/-- HTTP method of a declarative http tool (`"GET" | "POST"`). -/
inductive HttpMethod where
  | GET
  | POST
deriving DecidableEq, Repr

/-- Declarative http tool implementation. -/
structure HttpToolImpl where
  url : String
  method : HttpMethod
  headers : Option (List (String × String)) := none
  bodyTemplate : Option PData := none
  responseMapping : Option String := none
  responseTemplate : Option String := none
  timeout : Option Nat := none
deriving DecidableEq, Repr

/-- Tagged union of tool implementations. -/
inductive ToolImplementation where
  | http (impl : HttpToolImpl)
  | static (response : String)
  | builtin (handler : String)
deriving DecidableEq, Repr

/-- The `declaration` field of a tool config (description + parameter schema
shown to the model). -/
structure ToolDeclSpec where
  description : String
  parameters : Json
deriving DecidableEq, Repr

/-- A named capability the model may invoke. -/
structure ToolConfig where
  name : String
  declaration : ToolDeclSpec
  implementation : ToolImplementation
deriving DecidableEq, Repr

/-- A hot-reloadable feature as stored in the feature store. -/
structure FeatureDetail where
  featureName : String
  desc : String
  prompt : String
  actions : List ActionMapping
  defaultAction : String
  audioMappings : Option (List (String × Option String)) := none
  tools : List ToolConfig
  dataSchema : Json
  postProcessor : Option String := none
deriving DecidableEq, Repr

/-- The action constraint recorded on the session once a feature prompt is
loaded (src/unnamed/part_015): the feature's allowed UI actions plus its
data schema. -/
structure MatchedAction where
  actions : List String
  dataSchema : Json
deriving DecidableEq, Repr

/-- Caller-supplied user context. -/
structure UserData where
  name : Option String := none
  phoneNo : Option String := none
  date : Option String := none
deriving DecidableEq, Repr

/-- Conversation roles. -/
inductive Role where
  | user
  | model
  | function
deriving DecidableEq, Repr

/-- A function call emitted by the model.  `args` is `none` when the call
carried no argument object (`typeof fnCall.args !== "object"`). -/
structure FnCall where
  name : String
  args : Option Args := none
deriving DecidableEq, Repr

/-- One part of a conversation turn. -/
inductive HistPart where
  | text (s : String)
  | functionCall (fc : FnCall)
  | functionResponse (name : String) (content : String)
deriving DecidableEq, Repr

/-- One conversation turn. -/
structure ChatMessage where
  role : Role
  parts : List HistPart
deriving DecidableEq, Repr

/-- Per-conversation session state.  The driver profile and location are
opaque context blobs (only the prompt builder reads them); timestamps are
omitted (store-managed, never read). -/
structure Session where
  id : String
  history : List ChatMessage
  activeTools : List String
  activeFeature : Option String
  matchedAction : Option MatchedAction
  userData : Option UserData
  driverProfile : Option Json
  currentLocation : Option Json
deriving DecidableEq, Repr

/-- Result of executing one tool (union of the fields destructured by the
agent loops; absent optional fields model `undefined`). -/
structure ToolResult where
  msg : String
  addTools : Option (List String) := none
  featureName : Option String := none
  screenName : Option String := none
  audioName : Option String := none
  audioText : Option String := none
  uiAction : Option String := none
  predefindData : Option PData := none
deriving DecidableEq, Repr

/-- A tool implementation at the agent-loop boundary: arguments and the
session in, a result and the (possibly mutated) session out. -/
abbrev ToolFn := Args → Session → ToolResult × Session

/-- JavaScript truthiness of an optional string (`if (s) ...`):
`undefined`/`null` and the empty string are falsy. -/
def strTruthy : Option String → Bool
  | some s => !s.isEmpty
  | none => false

/-- JavaScript truthiness of an optional object: any object (even empty) is
truthy, `undefined`/`null` are falsy. -/
def objTruthy : Option PData → Bool
  | some _ => true
  | none => false

/-- Object spread `\x7b...old, ...new\x7d` modelled on association lists: a lookup
finds the overriding value from `new` first, then `old`. -/
def spreadMerge (old new : PData) : PData :=
  old.filter (fun p => (new.lookup p.1).isNone) ++ new

/-- `\x7b...response.predefindData, ...predefindData\x7d` where the accumulator may
still be `null`. -/
def mergePredefind (old : Option PData) (fresh : PData) : PData :=
  match old with
  | none => fresh
  | some o => spreadMerge o fresh

-- ─── Session store (src/src/store.ts, newSession) ───

/-- `newSession` (src/src/store.ts lines 64-82).  The literal copies
`baseTools` by value and does not mention `matchedAction`, so the field
reads as `undefined` (null-like); timestamps omitted as store-managed. -/
def newSession (id : String) (baseTools : List String) (userData : Option UserData)
    (driverProfile : Option Json) (location : Option Json) : Session :=
  { id := id
    history := []
    activeTools := baseTools
    activeFeature := none
    matchedAction := none
    userData := userData
    driverProfile := driverProfile
    currentLocation := location }

-- ─── Framework tools (src/unnamed/part_015, the revision the current agent loop imports) ───

/-- Formatting of knowledge-base results shown to the model. -/
def formatKBResults (entries : List KBEntry) : String :=
  if entries = [] then "No relevant info found in knowledge base."
  else
    String.intercalate "\n\n" (entries.map fun e =>
      match e with
      | KBEntry.info d => "[INFO] " ++ d
      | KBEntry.feature d fname _ =>
          "[FEATURE] featureName=\"" ++ fname ++ "\" — " ++ d ++
          "\n  -> Call fetchFeaturePrompt(featureName=\"" ++ fname ++
          "\") to get instructions.")

/-- Whether a knowledge-base entry is a feature pointer. -/
def isFeatureEntry : KBEntry → Bool
  | KBEntry.feature _ _ _ => true
  | KBEntry.info _ => false

/-- The `fetchKnowledgeBase` framework tool handler; `search` abstracts the
external semantic search.  When the first feature entry of the results names
a feature different from the session's active one, both `activeFeature` and
`matchedAction` are cleared. -/
def fetchKnowledgeBase (search : String → List KBEntry) : ToolFn := fun args s =>
  let results := search ((argS args "query").getD "")
  let res : ToolResult := { msg := formatKBResults results }
  match results.find? isFeatureEntry with
  | some (KBEntry.feature _ fname _) =>
      if some fname ≠ s.activeFeature then
        (res, { s with activeFeature := none, matchedAction := none })
      else
        (res, s)
  | _ => (res, s)

/-- The `fetchFeaturePrompt` framework tool handler; `store` abstracts
`getFeatureDetail`.  On success it records the feature's full action list
and data schema as the session's matched action and unlocks the feature's
tools. -/
def fetchFeaturePrompt (store : String → Option FeatureDetail) : ToolFn := fun args s =>
  let name := (argS args "featureName").getD ""
  match store name with
  | none => ({ msg := "Feature \"" ++ name ++ "\" not found." }, s)
  | some detail =>
      let s1 := { s with
        matchedAction := some { actions := detail.actions.map (fun a => a.uiAction)
                                dataSchema := detail.dataSchema } }
      ({ msg := detail.prompt
         addTools := some (detail.tools.map (fun t => t.name))
         featureName := some name }, s1)

/-- The shape of the synthetic `respondToUser` declaration: `actionTypeEnum`
is the `enum` of its `action_type` parameter, `dataSchema` its `action_data`
parameter. -/
structure RespondToolDecl where
  name : String
  description : String
  actionTypeEnum : List String
  dataSchema : Json
deriving DecidableEq, Repr

/-- The `action_data` default schema (an empty OBJECT schema). -/
def emptyObjectSchema : Json := "\x7btype: OBJECT, properties: \x7b\x7d\x7d"

/-- `buildRespondTool` (src/unnamed/part_015 lines 252-284): the action enum
is the matched action's list when present and nonempty, otherwise the
registry's full UI-action set (`allUIActions` passed explicitly since the
registry is explicit state here). -/
def buildRespondTool (allUIActions : List String) (matched : Option MatchedAction) :
    RespondToolDecl :=
  let actionEnum :=
    match matched with
    | some m => if m.actions ≠ [] then m.actions else allUIActions
    | none => allUIActions
  let schema :=
    match matched with
    | some m => m.dataSchema
    | none => emptyObjectSchema
  { name := "respondToUser"
    description := "Send your final Hinglish response and UI action to the user. Call exactly once to finish every turn."
    actionTypeEnum := actionEnum
    dataSchema := schema }

-- ─── Admin-side feature validation (src/unnamed/part_009 / part_010, validateFeature) ───

/-- `validateToolConfig`: absent strings are modelled by empty ones (falsy);
the `implementation?.type` missing/unknown branches are unrepresentable in
the typed sum. -/
def validateToolConfig (tc : ToolConfig) : Option String :=
  if tc.name.isEmpty then some "needs 'name'"
  else if tc.declaration.description.isEmpty then some "needs 'declaration.description'"
  else if tc.declaration.parameters.isEmpty then some "needs 'declaration.parameters'"
  else
    match tc.implementation with
    | ToolImplementation.http impl =>
        if impl.url.isEmpty then some "HTTP impl needs 'url'" else none
    | ToolImplementation.static r =>
        if r.isEmpty then some "Static impl needs 'response'" else none
    | ToolImplementation.builtin h =>
        if h.isEmpty then some "Builtin impl needs 'handler'" else none

/-- `validateFeature`: every feature accepted into the store passes these
checks; in particular it must declare at least one action and its default
action must be among them. -/
def validateFeature (f : FeatureDetail) : Option String :=
  if f.featureName.isEmpty then some "Need 'featureName'"
  else if f.prompt.isEmpty then some "Need 'prompt'"
  else if f.actions = [] then some "Need at least one action in 'actions'"
  else if f.defaultAction.isEmpty then some "Need 'defaultAction'"
  else if f.dataSchema.isEmpty then some "Need 'dataSchema'"
  else if f.actions.any (fun a => a.uiAction.isEmpty || a.intent.isEmpty) then
    some "Each action needs 'uiAction' and 'intent'"
  else if !(f.actions.any (fun a => a.uiAction = f.defaultAction)) then
    some ("'defaultAction' (" ++ f.defaultAction ++ ") must be in 'actions'")
  else
    f.tools.findSome? (fun tc =>
      (validateToolConfig tc).map (fun e => "Tool \"" ++ tc.name ++ "\": " ++ e))

-- ─── Runtime registry (src/unnamed/part_007, registry module) ───

/-- A JavaScript `Map<string, α>`: association list in insertion order;
`set` updates in place (keeping the original position) or appends. -/
abbrev SMap (α : Type) := List (String × α)

/-- `Map.prototype.set`. -/
def mapSet {α : Type} (m : SMap α) (k : String) (v : α) : SMap α :=
  if (m.lookup k).isSome then
    m.map (fun p => if p.1 = k then (k, v) else p)
  else
    m ++ [(k, v)]

/-- The registry's internal projection of a tool declaration. -/
structure RegToolDecl where
  name : String
  description : String
  parameters : Json
deriving DecidableEq, Repr

/-- The process-wide runtime registry. -/
structure Registry where
  features : SMap FeatureDetail
  declarations : SMap RegToolDecl
  toolConfigs : SMap ToolConfig
  actionToIntent : SMap String
  audioMap : SMap (Option String)
  allUIActions : List String
deriving DecidableEq, Repr

/-- Default system actions, present even with zero features loaded. -/
def SYSTEM_ACTIONS : List (String × String) := [("entry", "entry"), ("none", "generic")]

/-- The registry at process start. -/
def emptyRegistry : Registry :=
  { features := [], declarations := [], toolConfigs := [], actionToIntent := []
    audioMap := [], allUIActions := [] }

/-- State of the shared registry right after the five `clear()` calls at the
top of `rebuildRegistry` and before any repopulation; note `allUIActions` is
not cleared there (it is reassigned only at the end). -/
def rebuildAfterClears (r : Registry) : Registry :=
  { r with features := [], declarations := [], toolConfigs := []
           actionToIntent := [], audioMap := [] }

/-- `Set<string>` insertion (insertion order preserved). -/
def insertAction (set : List String) (a : String) : List String :=
  if a ∈ set then set else set ++ [a]

/-- Processing of one feature inside `rebuildRegistry`: register the
feature, its action-to-intent pairs (also collected into the UI-action set),
its audio mappings, and its tools' declarations and configs.  The source
loops update disjoint accumulators (one loop writes `actionToIntent` and the
action set, one loop writes `declarations` and `toolConfigs`), so they are
rendered as one fold per written field. -/
def processFeature (st : Registry × List String) (feat : FeatureDetail) :
    Registry × List String :=
  ({ features := mapSet st.1.features feat.featureName feat
     actionToIntent :=
       feat.actions.foldl (fun m am => mapSet m am.uiAction am.intent) st.1.actionToIntent
     audioMap :=
       match feat.audioMappings with
       | some ms => ms.foldl (fun m kv => mapSet m kv.1 kv.2) st.1.audioMap
       | none => st.1.audioMap
     declarations :=
       feat.tools.foldl
         (fun d tc => mapSet d tc.name
           { name := tc.name, description := tc.declaration.description
             parameters := tc.declaration.parameters })
         st.1.declarations
     toolConfigs := feat.tools.foldl (fun d tc => mapSet d tc.name tc) st.1.toolConfigs
     allUIActions := st.1.allUIActions },
   feat.actions.foldl (fun ss am => insertAction ss am.uiAction) st.2)

/-- The repopulation phase of `rebuildRegistry`: base audio map, system
actions, each feature in order, and finally the reassignment of
`allUIActions` from the collected action set. -/
def rebuildPopulate (features : List FeatureDetail)
    (baseAudioMap : Option (List (String × Option String))) (r : Registry) : Registry :=
  let rA :=
    match baseAudioMap with
    | some base =>
        { r with audioMap :=
            base.foldl (fun m (kv : String × Option String) => mapSet m kv.1 kv.2) r.audioMap }
    | none => r
  let rB :=
    { rA with actionToIntent :=
        SYSTEM_ACTIONS.foldl (fun m (sa : String × String) => mapSet m sa.1 sa.2) rA.actionToIntent }
  let actionSet := SYSTEM_ACTIONS.foldl (fun s (sa : String × String) => insertAction s sa.1) []
  let st := features.foldl processFeature (rB, actionSet)
  { st.1 with allUIActions := st.2 }

/-- `rebuildRegistry` (src/unnamed/part_007 lines 209-267): executed on the
shared registry as in-place clears followed by in-place repopulation. -/
def rebuildRegistry (features : List FeatureDetail)
    (baseAudioMap : Option (List (String × Option String))) (r : Registry) : Registry :=
  rebuildPopulate features baseAudioMap (rebuildAfterClears r)

/-- Registry getter: feature by name. -/
def getFeatureFromRegistry (r : Registry) (name : String) : Option FeatureDetail :=
  r.features.lookup name

/-- Registry getter: tool declaration by name. -/
def getToolDeclaration (r : Registry) (name : String) : Option RegToolDecl :=
  r.declarations.lookup name

/-- Registry getter: tool config by name. -/
def getToolConfig (r : Registry) (name : String) : Option ToolConfig :=
  r.toolConfigs.lookup name

/-- Registry getter: intent for a UI action, defaulting to `"generic"`. -/
def getIntentForAction (r : Registry) (uiAction : String) : String :=
  (r.actionToIntent.lookup uiAction).getD "generic"

/-- Registry getter: audio url for a key (`?? null`). -/
def getAudioFromRegistry (r : Registry) (key : String) : Option String :=
  (r.audioMap.lookup key).getD none

/-- Registry getter: the full UI-action set. -/
def getAllUIActions (r : Registry) : List String :=
  r.allUIActions

-- ─── Tool executor (src/src/executor.ts) ───

/-- A JavaScript exception / promise rejection value. -/
structure JsError where
  message : String
deriving DecidableEq, Repr

/-- `executeImpl` (src/src/executor.ts lines 124-153).  `httpFn` abstracts
the awaited `executeHttp` network call (it may reject); `handlers` abstracts
the registered builtin handlers, which are async functions whose raised
errors are promise rejections.  The http branch awaits inside the
try/catch, so a rejection there is caught and becomes a textual result; the
builtin branch is `return handler(args, session)` WITHOUT `await`, so the
returned promise's rejection bypasses the catch block and propagates to the
caller (ECMAScript semantics of returning a promise from inside `try`). -/
def executeImpl (httpFn : HttpToolImpl → Args → Except JsError String)
    (handlers : String → Option (Args → Session → Except JsError (ToolResult × Session)))
    (impl : ToolImplementation) (args : Args) (s : Session) :
    Except JsError (ToolResult × Session) :=
  match impl with
  | ToolImplementation.http h =>
      match httpFn h args with
      | Except.ok msg => Except.ok ({ msg := msg }, s)
      | Except.error e => Except.ok ({ msg := "Tool execution error: " ++ e.message }, s)
  | ToolImplementation.static r => Except.ok ({ msg := r }, s)
  | ToolImplementation.builtin h =>
      match handlers h with
      | none => Except.ok ({ msg := "Builtin handler \"" ++ h ++ "\" not registered." }, s)
      | some f => f args s

/-- `executeDynamicTool` (src/src/executor.ts lines 111-122): registry
lookup then `executeImpl`; it has no try/catch of its own. -/
def executeDynamicTool (httpFn : HttpToolImpl → Args → Except JsError String)
    (handlers : String → Option (Args → Session → Except JsError (ToolResult × Session)))
    (reg : Registry) (name : String) (args : Args) (s : Session) :
    Except JsError (ToolResult × Session) :=
  match getToolConfig reg name with
  | none => Except.ok ({ msg := "Tool \"" ++ name ++ "\" not found in registry." }, s)
  | some config => executeImpl httpFn handlers config.implementation args s

-- ─── Agent loop (src/src/agent.ts) ───

/-- The fixed base tool set unlocked for every fresh session. -/
def BASE_TOOLS : List String :=
  ["fetchKnowledgeBase", "fetchFeaturePrompt", "playPredefineAudioInApp",
   "playCustomAudioInApp", "changeScreenInApp", "uiActionInApp"]

/-- The loop's depth bound. -/
def MAX_DEPTH : Nat := 15

/-- One part of a streamed model response: an optional text fragment and an
optional function call (a part can carry both). -/
structure StreamPart where
  text : Option String := none
  functionCall : Option FnCall := none
deriving DecidableEq, Repr

/-- Accumulation of the text fragments of a streamed response
(`if (p.text) text += p.text`), starting from a given prefix. -/
def concatTexts (parts : List StreamPart) : String :=
  parts.foldl (fun acc p => if strTruthy p.text then acc ++ p.text.getD "" else acc) ""

/-- The first function call of a streamed response
(`if (p.functionCall && !fnCall) fnCall = p.functionCall`). -/
def firstFnCall (parts : List StreamPart) : Option FnCall :=
  parts.findSome? (fun p => p.functionCall)

/-- Appending unlocked tool names without duplicates
(`if (!session.activeTools.includes(t)) session.activeTools.push(t)`). -/
def addToolNames (acc : List String) (ts : List String) : List String :=
  ts.foldl (fun a t => if t ∈ a then a else a ++ [t]) acc

/-- The accumulated structured result of one external request
(src/src/agent.ts, `AgentResponse`). -/
structure AgentResponse where
  audioText : String
  audioName : String
  screenName : String
  uiAction : String
  predefindData : Option PData
deriving DecidableEq, Repr

/-- The initial accumulator built by `resolve`. -/
def initialResponse : AgentResponse :=
  { audioText := "", audioName := "", screenName := "", uiAction := ""
    predefindData := none }

/-- The recursive `loop` of src/src/agent.ts (lines 152-259), with the model
stream abstracted as `oracle` (the flattened part list of the response
generated at a given depth) and `getTool`-plus-execution abstracted as
`tools`.  Notable source facts embedded verbatim: the depth guard clears
`audioName` and returns the accumulator unchanged otherwise; the text
accumulator is initialized to the literal `"limitReachedAudio"`; only the
first function call of a round is honored; `response.audioText` is never
assigned; tool outcomes update the session (`activeFeature`, `activeTools`)
and the accumulator (`screenName`, `audioName`, `uiAction`,
`predefindData`) only under JavaScript truthiness.  `saveSession` persists
externally and does not change the in-memory session.  The fuel argument is
`MAX_DEPTH + 1 - depth` at every reachable call, so the fuel-exhausted case
(which mirrors the depth guard) is never taken from `resolve`. -/
def loopGo (oracle : Nat → List StreamPart) (tools : String → Option ToolFn) :
    Nat → Session → Nat → AgentResponse → AgentResponse × Session
  | 0, s, _, r => ({ r with audioName := "" }, s)
  | fuel + 1, s, depth, r =>
    if MAX_DEPTH ≤ depth then ({ r with audioName := "" }, s)
    else
      let parts := oracle depth
      let text := "limitReachedAudio" ++ concatTexts parts
      match firstFnCall parts with
      | some fc =>
          let s1 := { s with history := s.history ++ [⟨Role.model, [HistPart.functionCall fc]⟩] }
          let args := fc.args.getD []
          let outcome :=
            match tools fc.name with
            | some f => f args s1
            | none => (({ msg := "Error: tool \"" ++ fc.name ++ "\" not found." } : ToolResult), s1)
          let res := outcome.1
          let s2 := outcome.2
          let s3 :=
            if strTruthy res.featureName then { s2 with activeFeature := res.featureName } else s2
          let r1 : AgentResponse :=
            { r with
              screenName := if strTruthy res.screenName then res.screenName.getD "" else r.screenName
              audioName := if strTruthy res.audioName then res.audioName.getD "" else r.audioName
              uiAction := if strTruthy res.uiAction then res.uiAction.getD "" else r.uiAction
              predefindData :=
                if objTruthy res.predefindData then
                  some (mergePredefind r.predefindData (res.predefindData.getD []))
                else r.predefindData }
          let s4 :=
            if (res.addTools).isSome then
              { s3 with activeTools := addToolNames s3.activeTools ((res.addTools).getD []) }
            else s3
          let s5 := { s4 with history := s4.history ++
            [⟨Role.function, [HistPart.functionResponse fc.name res.msg]⟩] }
          loopGo oracle tools fuel s5 (depth + 1) r1
      | none =>
          let s1 := { s with
            history := s.history ++ [⟨Role.model, [HistPart.text text]⟩]
            matchedAction := none }
          (r, s1)

/-- `resolve` (src/src/agent.ts lines 138-150). -/
def resolve (oracle : Nat → List StreamPart) (tools : String → Option ToolFn)
    (s : Session) : AgentResponse × Session :=
  loopGo oracle tools (MAX_DEPTH + 1) s 0 initialResponse

-- ─── Older agent loop with the respondToUser protocol (src/unnamed/part_002, first revision) ───

/-- The result shape of the older loop: final text plus one UI action. -/
structure AgentResponseV1 where
  response : String
  actionType : String
  actionData : PData
deriving DecidableEq, Repr

/-- The canned depth-exceeded fallback of the older loop. -/
def cannedDepthResponse : AgentResponseV1 :=
  { response := "Bahut zyada steps ho gaye. Kya aap dobara bata sakte hain?"
    actionType := "none", actionData := [] }

/-- The recursive `loop` of src/unnamed/part_002 (lines 97-186): the depth
guard returns a canned Hinglish apology with action `none`; a
`respondToUser` call ends the turn with the model-supplied response text and
action; any other function call executes a tool and recurses; no function
call ends the turn with the streamed text (or a fallback when empty).  The
fuel-exhausted case mirrors the depth guard and is never taken from
`resolveV1`. -/
def loopV1Go (oracle : Nat → List StreamPart) (tools : String → Option ToolFn) :
    Nat → Session → Nat → AgentResponseV1 × Session
  | 0, s, _ => (cannedDepthResponse, s)
  | fuel + 1, s, depth =>
    if MAX_DEPTH ≤ depth then (cannedDepthResponse, s)
    else
      let parts := oracle depth
      let text := concatTexts parts
      match firstFnCall parts with
      | some fc =>
          if fc.name = "respondToUser" then
            let args := fc.args.getD []
            let responseText := (argS args "response").getD text
            let s1 := { s with
              history := s.history ++ [⟨Role.model, [HistPart.text responseText]⟩]
              matchedAction := none }
            (({ response := responseText
                actionType := (argS args "action_type").getD "none"
                actionData := argObj args "action_data" } : AgentResponseV1), s1)
          else
            let s1 := { s with history := s.history ++ [⟨Role.model, [HistPart.functionCall fc]⟩] }
            let args := fc.args.getD []
            let outcome :=
              match tools fc.name with
              | some f => f args s1
              | none => (({ msg := "Error: tool \"" ++ fc.name ++ "\" not found." } : ToolResult), s1)
            let res := outcome.1
            let s2 := outcome.2
            let s3 :=
              if strTruthy res.featureName then { s2 with activeFeature := res.featureName } else s2
            let s4 :=
              if (res.addTools).isSome then
                { s3 with activeTools := addToolNames s3.activeTools ((res.addTools).getD []) }
              else s3
            let s5 := { s4 with history := s4.history ++
              [⟨Role.function, [HistPart.functionResponse fc.name res.msg]⟩] }
            loopV1Go oracle tools fuel s5 (depth + 1)
      | none =>
          let s1 := { s with
            history := s.history ++ [⟨Role.model, [HistPart.text text]⟩]
            matchedAction := none }
          (({ response := if text.isEmpty then
                "Kuch samajh nahi aaya, kya aap dobara bata sakte hain?" else text
              actionType := "none", actionData := [] } : AgentResponseV1), s1)

/-- `resolve` of the older loop. -/
def resolveV1 (oracle : Nat → List StreamPart) (tools : String → Option ToolFn)
    (s : Session) : AgentResponseV1 × Session :=
  loopV1Go oracle tools (MAX_DEPTH + 1) s 0

-- ─── Observation helper for the single-function-call-per-round property ───

/-- Removal of every function call after the first from a streamed response,
leaving all text fragments in place (`seen` records whether a function call
has already been kept). -/
def dropLaterCalls2 (seen : Bool) : List StreamPart → List StreamPart
  | [] => []
  | p :: rest =>
    match p.functionCall with
    | some _ =>
        if seen then { p with functionCall := none } :: dropLaterCalls2 true rest
        else p :: dropLaterCalls2 true rest
    | none => p :: dropLaterCalls2 seen rest

/-- A streamed response with every function call after the first removed. -/
def dropLaterCalls (parts : List StreamPart) : List StreamPart :=
  dropLaterCalls2 false parts

-- ─── Concrete test fixtures ───

/-- A fresh session as created by the request handler. -/
def demoSession : Session := newSession "s1" BASE_TOOLS none none none

/-- A tool interpretation under which no tool resolves. -/
def noTools : String → Option ToolFn := fun _ => none

/-- A model that answers every round with a single function call. -/
def demoOracle : Nat → List StreamPart :=
  fun _ => [{ functionCall := some { name := "searchCabsTool" } }]

/-- A model that answers with text only (no function call). -/
def oracleNoCall : Nat → List StreamPart :=
  fun _ => [{ text := some "Namaste" }]

/-- An http transport whose fetch always rejects (unreachable URL). -/
def unreachableHttpFn : HttpToolImpl → Args → Except JsError String :=
  fun _ _ => Except.error { message := "fetch failed: unreachable" }

/-- A builtin handler registration containing one async handler that
rejects. -/
def rejectingHandlers :
    String → Option (Args → Session → Except JsError (ToolResult × Session)) :=
  fun n =>
    if n = "verifyAadharOtp" then
      some (fun _ _ => Except.error { message := "boom" })
    else none

/-- A declaratively configured http tool pointing at an unreachable host. -/
def demoHttpTool : HttpToolImpl :=
  { url := "https://unreachable.example/\x7b\x7bcity\x7d\x7d", method := HttpMethod.GET }

/-- A statically implemented tool config. -/
def demoTool : ToolConfig :=
  { name := "searchCabsTool"
    declaration := { description := "Search available cabs", parameters := "\x7btype: OBJECT\x7d" }
    implementation := ToolImplementation.static "ok" }

/-- A registered feature passing admin validation. -/
def demoFeature : FeatureDetail :=
  { featureName := "find_duties"
    desc := "find trips for drivers"
    prompt := "Extract from_city and to_city and show duties."
    actions := [{ uiAction := "show_duties_list", intent := "get_duties" }]
    defaultAction := "show_duties_list"
    tools := [demoTool]
    dataSchema := "\x7btype: OBJECT, properties: \x7bfrom_city, to_city\x7d\x7d" }

/-- The registry after loading the demo feature into an empty registry. -/
def oldReg : Registry := rebuildRegistry [demoFeature] none emptyRegistry

/-- A knowledge-base search that always matches the demo feature. -/
def kbDemo : String → List KBEntry :=
  fun _ => [KBEntry.feature "find trips for drivers" "find_duties" ["searchCabsTool"]]

/-- A session currently inside a different feature flow. -/
def sessionWithFeature : Session := { demoSession with activeFeature := some "fraud_check" }

/-- A feature store holding exactly the demo feature. -/
def demoStore : String → Option FeatureDetail :=
  fun n => if n = "find_duties" then some demoFeature else none

/-- A tool config dispatching to the rejecting builtin handler. -/
def builtinTool : ToolConfig :=
  { name := "verifyAadharOtpTool"
    declaration := { description := "Verify Aadhaar OTP", parameters := "\x7btype: OBJECT\x7d" }
    implementation := ToolImplementation.builtin "verifyAadharOtp" }

/-- A registry whose tool-config index holds the builtin-backed tool. -/
def regWithBuiltin : Registry :=
  { emptyRegistry with toolConfigs := [("verifyAadharOtpTool", builtinTool)] }

-- ════════════════════════ Theorems ════════════════════════

-- ─── Registry rebuild lemmas ───

/-- Congruence for overwriting the `allUIActions` field. -/
theorem mk_allUI_congr (A B : Registry) (a b : List String)
    (h1 : A.features = B.features) (h2 : A.declarations = B.declarations)
    (h3 : A.toolConfigs = B.toolConfigs) (h4 : A.actionToIntent = B.actionToIntent)
    (h5 : A.audioMap = B.audioMap) (h6 : a = b) :
    ({ A with allUIActions := a } : Registry) = { B with allUIActions := b } := by
  cases A
  cases B
  simp only [] at h1 h2 h3 h4 h5
  subst h1 h2 h3 h4 h5 h6
  rfl

/-- The per-feature fold of `rebuildRegistry` is a congruence in every field
except `allUIActions` (which is only read/written at the very end of the
rebuild). -/
theorem foldl_pf_congr (fs : List FeatureDetail) :
    ∀ (p q : Registry × List String),
    p.1.features = q.1.features → p.1.declarations = q.1.declarations →
    p.1.toolConfigs = q.1.toolConfigs → p.1.actionToIntent = q.1.actionToIntent →
    p.1.audioMap = q.1.audioMap → p.2 = q.2 →
    ((fs.foldl processFeature p).1.features = (fs.foldl processFeature q).1.features)
    ∧ ((fs.foldl processFeature p).1.declarations = (fs.foldl processFeature q).1.declarations)
    ∧ ((fs.foldl processFeature p).1.toolConfigs = (fs.foldl processFeature q).1.toolConfigs)
    ∧ ((fs.foldl processFeature p).1.actionToIntent = (fs.foldl processFeature q).1.actionToIntent)
    ∧ ((fs.foldl processFeature p).1.audioMap = (fs.foldl processFeature q).1.audioMap)
    ∧ ((fs.foldl processFeature p).2 = (fs.foldl processFeature q).2) := by
  induction fs with
  | nil =>
      intro p q h1 h2 h3 h4 h5 h6
      exact ⟨h1, h2, h3, h4, h5, h6⟩
  | cons f rest ih =>
      intro p q h1 h2 h3 h4 h5 h6
      simp only [List.foldl_cons]
      exact ih (processFeature p f) (processFeature q f)
        (by simp only [processFeature]; rw [h1])
        (by simp only [processFeature]; rw [h2])
        (by simp only [processFeature]; rw [h3])
        (by simp only [processFeature]; rw [h4])
        (by simp only [processFeature]; cases f.audioMappings <;> simp only [] <;> rw [h5])
        (by simp only [processFeature]; rw [h6])

/-- The repopulation phase is a congruence in every field except
`allUIActions`, which it overwrites. -/
theorem rebuildPopulate_congr (fs : List FeatureDetail)
    (base : Option (List (String × Option String))) (X Y : Registry)
    (hf : X.features = Y.features) (hd : X.declarations = Y.declarations)
    (htc : X.toolConfigs = Y.toolConfigs) (hai : X.actionToIntent = Y.actionToIntent)
    (ham : X.audioMap = Y.audioMap) :
    rebuildPopulate fs base X = rebuildPopulate fs base Y := by
  unfold rebuildPopulate
  cases base with
  | none =>
      obtain ⟨g1, g2, g3, g4, g5, g6⟩ := foldl_pf_congr fs
        ({ X with actionToIntent :=
            SYSTEM_ACTIONS.foldl (fun m sa => mapSet m sa.1 sa.2) X.actionToIntent },
         SYSTEM_ACTIONS.foldl (fun s sa => insertAction s sa.1) [])
        ({ Y with actionToIntent :=
            SYSTEM_ACTIONS.foldl (fun m sa => mapSet m sa.1 sa.2) Y.actionToIntent },
         SYSTEM_ACTIONS.foldl (fun s sa => insertAction s sa.1) [])
        hf hd htc (by rw [hai]) ham rfl
      exact mk_allUI_congr _ _ _ _ g1 g2 g3 g4 g5 g6
  | some bs =>
      obtain ⟨g1, g2, g3, g4, g5, g6⟩ := foldl_pf_congr fs
        ({ X with
            audioMap := bs.foldl (fun m kv => mapSet m kv.1 kv.2) X.audioMap
            actionToIntent :=
              SYSTEM_ACTIONS.foldl (fun m sa => mapSet m sa.1 sa.2) X.actionToIntent },
         SYSTEM_ACTIONS.foldl (fun s sa => insertAction s sa.1) [])
        ({ Y with
            audioMap := bs.foldl (fun m kv => mapSet m kv.1 kv.2) Y.audioMap
            actionToIntent :=
              SYSTEM_ACTIONS.foldl (fun m sa => mapSet m sa.1 sa.2) Y.actionToIntent },
         SYSTEM_ACTIONS.foldl (fun s sa => insertAction s sa.1) [])
        hf hd htc (by rw [hai]) (by rw [ham]) rfl
      exact mk_allUI_congr _ _ _ _ g1 g2 g3 g4 g5 g6

/-- The rebuilt registry does not depend on the prior registry state: the
five maps are cleared first and `allUIActions` is reassigned at the end. -/
theorem rebuild_state_blind (fs : List FeatureDetail)
    (base : Option (List (String × Option String))) (r r' : Registry) :
    rebuildRegistry fs base r = rebuildRegistry fs base r' := by
  unfold rebuildRegistry
  exact rebuildPopulate_congr fs base (rebuildAfterClears r) (rebuildAfterClears r')
    rfl rfl rfl rfl rfl

-- ─── C6: registry rebuild, in place vs. swap-on-build ───

/-- C6 (counterexample): the rebuild does not build a new structure off to
the side and swap a pointer — it mutates the shared registry in place.  The
state of the shared registry after the five `clear()` calls (a genuine
intermediate machine state of `rebuildRegistry`, as witnessed by the third
conjunct) differs both from the pre-rebuild snapshot and from the
post-rebuild snapshot, so an interleaved reader would observe a torn
registry rather than fully-old or fully-new. -/
theorem C6_rebuild_counterexample :
    (rebuildAfterClears oldReg ≠ oldReg)
    ∧ (rebuildAfterClears oldReg ≠ rebuildRegistry [demoFeature] none oldReg)
    ∧ (rebuildRegistry [demoFeature] none oldReg
        = rebuildPopulate [demoFeature] none (rebuildAfterClears oldReg)) := by
  refine ⟨by decide, by decide, rfl⟩

/-- C6 (amended): `rebuildRegistry` clears and repopulates the shared
registry in place (first conjunct: it factors through the cleared
intermediate state) rather than swapping a pointer; the post-rebuild
snapshot nevertheless depends only on the feature list and base audio map,
not on the prior registry state (second conjunct), and the function body
contains no suspension point, so under run-to-completion scheduling a reader
still observes only the fully-old or fully-new snapshot. -/
theorem C6_rebuild_in_place :
    (∀ (fs : List FeatureDetail) (base : Option (List (String × Option String))) (r : Registry),
      rebuildRegistry fs base r = rebuildPopulate fs base (rebuildAfterClears r))
    ∧ (∀ (fs : List FeatureDetail) (base : Option (List (String × Option String)))
        (r r' : Registry), rebuildRegistry fs base r = rebuildRegistry fs base r') :=
  ⟨fun _ _ _ => rfl, fun fs base r r' => rebuild_state_blind fs base r r'⟩

-- ─── C7: registry rebuild idempotence ───

/-- C7: rebuilding twice with the same feature list and base audio map
leaves every registry getter answering exactly as after a single rebuild. -/
theorem C7_rebuild_idempotent (fs : List FeatureDetail)
    (base : Option (List (String × Option String))) (r : Registry)
    (name tname cname act akey : String) :
    (getFeatureFromRegistry (rebuildRegistry fs base (rebuildRegistry fs base r)) name
      = getFeatureFromRegistry (rebuildRegistry fs base r) name)
    ∧ (getToolDeclaration (rebuildRegistry fs base (rebuildRegistry fs base r)) tname
      = getToolDeclaration (rebuildRegistry fs base r) tname)
    ∧ (getToolConfig (rebuildRegistry fs base (rebuildRegistry fs base r)) cname
      = getToolConfig (rebuildRegistry fs base r) cname)
    ∧ (getIntentForAction (rebuildRegistry fs base (rebuildRegistry fs base r)) act
      = getIntentForAction (rebuildRegistry fs base r) act)
    ∧ (getAudioFromRegistry (rebuildRegistry fs base (rebuildRegistry fs base r)) akey
      = getAudioFromRegistry (rebuildRegistry fs base r) akey)
    ∧ (getAllUIActions (rebuildRegistry fs base (rebuildRegistry fs base r))
      = getAllUIActions (rebuildRegistry fs base r)) := by
  rw [rebuild_state_blind fs base (rebuildRegistry fs base r) r]
  exact ⟨rfl, rfl, rfl, rfl, rfl, rfl⟩

-- ─── C2: the tool executor and exception propagation ───

/-- C2 (code evaluated at the failing input): the static, unregistered
builtin and failing-http cases all produce an `ok` result carrying a
descriptive message, but a registered builtin whose async handler rejects
makes `executeImpl` itself reject (last conjunct): `return handler(args,
session)` inside the `try` block is not awaited, so the rejection bypasses
the `catch` and propagates out of the executor — the agent loop's own
`catch` logs and rethrows it. -/
theorem C2_executor_rejection_leak :
    (executeImpl unreachableHttpFn rejectingHandlers
        (ToolImplementation.static "hello") [] demoSession
      = Except.ok ({ msg := "hello" }, demoSession))
    ∧ (executeImpl unreachableHttpFn rejectingHandlers
        (ToolImplementation.builtin "nope") [] demoSession
      = Except.ok ({ msg := "Builtin handler \"nope\" not registered." }, demoSession))
    ∧ (executeImpl unreachableHttpFn rejectingHandlers
        (ToolImplementation.http demoHttpTool) [] demoSession
      = Except.ok ({ msg := "Tool execution error: fetch failed: unreachable" }, demoSession))
    ∧ (executeImpl unreachableHttpFn rejectingHandlers
        (ToolImplementation.builtin "verifyAadharOtp") [] demoSession
      = Except.error { message := "boom" })
    ∧ (executeDynamicTool unreachableHttpFn rejectingHandlers regWithBuiltin
        "unknownTool" [] demoSession
      = Except.ok ({ msg := "Tool \"unknownTool\" not found in registry." }, demoSession))
    ∧ (executeDynamicTool unreachableHttpFn rejectingHandlers regWithBuiltin
        "verifyAadharOtpTool" [] demoSession
      = Except.error { message := "boom" }) := by
  exact ⟨rfl, rfl, rfl, rfl, rfl, rfl⟩

-- ─── Template interpolation lemmas ───

/-- A run of non-close-brace characters is taken whole by the token scan. -/
theorem takeWhile_token (tok : List Char) (h : ∀ c ∈ tok, c ≠ closeBrace) :
    (tok ++ [closeBrace, closeBrace]).takeWhile (fun ch => ch != closeBrace) = tok := by
  induction tok with
  | nil => simp [List.takeWhile]
  | cons c cs ih =>
      have hc : c ≠ closeBrace := h c (by simp)
      simp only [List.cons_append, List.takeWhile_cons]
      rw [if_pos (by simpa [bne_iff_ne] using hc)]
      rw [ih (fun x hx => h x (List.mem_cons_of_mem _ hx))]

/-- What remains after the token run are the two closing braces. -/
theorem dropWhile_token (tok : List Char) (h : ∀ c ∈ tok, c ≠ closeBrace) :
    (tok ++ [closeBrace, closeBrace]).dropWhile (fun ch => ch != closeBrace)
      = [closeBrace, closeBrace] := by
  induction tok with
  | nil => simp [List.dropWhile]
  | cons c cs ih =>
      have hc : c ≠ closeBrace := h c (by simp)
      simp only [List.cons_append, List.dropWhile_cons]
      rw [if_pos (by simpa [bne_iff_ne] using hc)]
      exact ih (fun x hx => h x (List.mem_cons_of_mem _ hx))

/-- A well-formed token template interpolates to exactly the token's
substitution value. -/
theorem interpolateL_token (env vars : String → Option String) (tok : List Char)
    (h1 : tok ≠ []) (h2 : ∀ c ∈ tok, c ≠ closeBrace) :
    interpolateL env vars (openBrace :: openBrace :: (tok ++ [closeBrace, closeBrace]))
      = tokenValue env vars tok := by
  unfold interpolateL
  rw [show (openBrace :: openBrace :: (tok ++ [closeBrace, closeBrace])).length
      = tok.length + 4 from by simp [List.length_append]]
  rw [show tok.length + 4 = (tok.length + 3) + 1 from rfl]
  rw [interpGo]
  simp only [List.head?_cons, List.tail_cons]
  rw [if_pos (by simp)]
  rw [takeWhile_token tok h2, dropWhile_token tok h2]
  rw [if_pos (by simp [h1])]
  rw [show (List.drop 2 [closeBrace, closeBrace] : List Char) = [] from rfl]
  rw [show tok.length + 3 = (tok.length + 2) + 1 from rfl]
  rw [interpGo]
  simp

-- ─── C8: template interpolation ───

/-- C8: the interpolator substitutes each well-formed token (nonempty key
free of close braces): an `ENV.`-prefixed key is looked up in the process
environment and any other key in the call's argument record, a missing
binding yielding the empty string, never a crash and never the token left in
place (third conjunct, via `tokenValue`); in particular the example URL
resolves to `https://x/Delhi` (first conjunct) and an `ENV` token with the
variable unset interpolates to the empty string (second conjunct). -/
theorem C8_interpolate_tokens :
    (∀ env : String → Option String,
      interpolate env (fun k => if k = "city" then some "Delhi" else none)
        "https://x/\x7b\x7bcity\x7d\x7d" = "https://x/Delhi")
    ∧ (∀ vars : String → Option String,
      interpolate (fun _ => none) vars "\x7b\x7bENV.FOO\x7d\x7d" = "")
    ∧ (∀ (env vars : String → Option String) (tok : List Char),
        tok ≠ [] → (∀ c ∈ tok, c ≠ closeBrace) →
        interpolateL env vars (openBrace :: openBrace :: (tok ++ [closeBrace, closeBrace]))
          = tokenValue env vars tok) := by
  refine ⟨fun env => ?_, fun vars => ?_,
    fun env vars tok h1 h2 => interpolateL_token env vars tok h1 h2⟩
  · rfl
  · rfl

/-- C8 witness: the token lemma applied at the concrete key `city`. -/
theorem C8_interpolate_tokens_witness :
    interpolateL (fun _ => none) (fun k => if k = "city" then some "Delhi" else none)
      (openBrace :: openBrace :: ((['c', 'i', 't', 'y'] : List Char) ++ [closeBrace, closeBrace]))
      = tokenValue (fun _ => none) (fun k => if k = "city" then some "Delhi" else none)
        ['c', 'i', 't', 'y'] :=
  C8_interpolate_tokens.2.2 _ _ ['c', 'i', 't', 'y'] (by decide) (by decide)

-- ─── C3: feature-switch invariant of fetchKnowledgeBase ───

/-- C3: when the knowledge-base handler finds a feature entry (the first
feature-typed result, as the handler's `find` does) whose name differs from
the session's active feature, then after the handler returns the session's
`activeFeature` is `null` and its `matchedAction` is `null` as well. -/
theorem C3_feature_switch_clears (search : String → List KBEntry) (args : Args)
    (s : Session) (d fname : String) (ftools : List String)
    (hfind : (search ((argS args "query").getD "")).find? isFeatureEntry
      = some (KBEntry.feature d fname ftools))
    (hdiff : s.activeFeature ≠ some fname) :
    ((fetchKnowledgeBase search args s).2.activeFeature = none)
    ∧ ((fetchKnowledgeBase search args s).2.matchedAction = none) := by
  simp only [fetchKnowledgeBase]
  rw [hfind]
  dsimp only
  rw [if_pos (fun hsym => hdiff hsym.symm)]
  exact ⟨rfl, rfl⟩

/-- C3 witness: a session inside the `fraud_check` flow receiving a
`find_duties` knowledge-base match has both fields cleared. -/
theorem C3_feature_switch_clears_witness :
    ((fetchKnowledgeBase kbDemo [] sessionWithFeature).2.activeFeature = none)
    ∧ ((fetchKnowledgeBase kbDemo [] sessionWithFeature).2.matchedAction = none) :=
  C3_feature_switch_clears kbDemo [] sessionWithFeature
    "find trips for drivers" "find_duties" ["searchCabsTool"] rfl (by decide)

-- ─── C4: the respond tool's action enum after a feature prompt load ───

/-- A feature passing admin validation declares at least one action. -/
theorem validateFeature_actions_ne_nil {f : FeatureDetail}
    (h : validateFeature f = none) : f.actions ≠ [] := by
  intro hnil
  unfold validateFeature at h
  split_ifs at h

/-- C4: for a feature registered in the store (hence passing validation),
a successful `fetchFeaturePrompt` leaves a matched action whose respond-tool
declaration constrains `action_type` to exactly that feature's registered
action list — whatever the registry's global UI-action set is. -/
theorem C4_respond_enum_is_feature_actions (store : String → Option FeatureDetail)
    (args : Args) (s : Session) (detail : FeatureDetail) (allUI : List String)
    (hstore : store ((argS args "featureName").getD "") = some detail)
    (hvalid : validateFeature detail = none) :
    (buildRespondTool allUI ((fetchFeaturePrompt store args s).2).matchedAction).actionTypeEnum
      = detail.actions.map (fun a => a.uiAction) := by
  simp only [fetchFeaturePrompt]
  rw [hstore]
  simp only [buildRespondTool]
  rw [if_pos]
  simp only [ne_eq, List.map_eq_nil_iff]
  exact validateFeature_actions_ne_nil hvalid

/-- C4 witness: loading the demo feature constrains the respond tool's enum
to `[show_duties_list]`, not the global action set passed in. -/
theorem C4_respond_enum_is_feature_actions_witness :
    (buildRespondTool ["entry", "none"]
        ((fetchFeaturePrompt demoStore [("featureName", JsVal.str "find_duties")]
          demoSession).2).matchedAction).actionTypeEnum
      = demoFeature.actions.map (fun a => a.uiAction) :=
  C4_respond_enum_is_feature_actions demoStore [("featureName", JsVal.str "find_duties")]
    demoSession demoFeature ["entry", "none"] rfl rfl

-- ─── Agent-loop helper lemmas ───

/-- A conditional `activeFeature` update never changes the history. -/
theorem history_if_activeFeature (c : Prop) [Decidable c] (X : Session) (v : Option String) :
    (if c then { X with activeFeature := v } else X).history = X.history := by
  split <;> rfl

/-- A conditional `activeTools` update never changes the history. -/
theorem history_if_activeTools (c : Prop) [Decidable c] (X : Session) (v : List String) :
    (if c then { X with activeTools := v } else X).history = X.history := by
  split <;> rfl

/-- A conditional `activeFeature` update never changes the tool set. -/
theorem activeTools_if_activeFeature (c : Prop) [Decidable c] (X : Session) (v : Option String) :
    (if c then { X with activeFeature := v } else X).activeTools = X.activeTools := by
  split <;> rfl

/-- Membership is preserved by the duplicate-free tool append. -/
theorem mem_addToolNames (ts : List String) :
    ∀ (acc : List String) (t : String), t ∈ acc → t ∈ addToolNames acc ts := by
  induction ts with
  | nil => intro acc t h; exact h
  | cons x xs ih =>
      intro acc t h
      refine ih _ t ?_
      by_cases hx : x ∈ acc
      · simp only [if_pos hx]; exact h
      · simp only [if_neg hx]; exact List.mem_append_left _ h

/-- Freedom from duplicates is preserved by the duplicate-free tool
append. -/
theorem nodup_addToolNames (ts : List String) :
    ∀ (acc : List String), acc.Nodup → (addToolNames acc ts).Nodup := by
  induction ts with
  | nil => intro acc h; exact h
  | cons x xs ih =>
      intro acc h
      refine ih _ ?_
      by_cases hx : x ∈ acc
      · simp only [if_pos hx]; exact h
      · simp only [if_neg hx]
        simp [List.nodup_append, h, hx]

/-- Scrubbing later function calls keeps every text fragment. -/
theorem foldl_text_dropLaterCalls2 (ps : List StreamPart) :
    ∀ (seen : Bool) (acc : String),
    (dropLaterCalls2 seen ps).foldl
      (fun acc p => if strTruthy p.text then acc ++ p.text.getD "" else acc) acc
    = ps.foldl (fun acc p => if strTruthy p.text then acc ++ p.text.getD "" else acc) acc := by
  induction ps with
  | nil => intro seen acc; rfl
  | cons p rest ih =>
      intro seen acc
      cases hfc : p.functionCall with
      | some fc =>
          simp only [dropLaterCalls2, hfc]
          cases seen
          · simp only [Bool.false_eq_true, if_false, List.foldl_cons]
            exact ih true _
          · simp only [if_true, List.foldl_cons]
            exact ih true _
      | none =>
          simp only [dropLaterCalls2, hfc, List.foldl_cons]
          exact ih seen _

/-- Scrubbing later function calls keeps the accumulated text. -/
theorem concatTexts_dropLaterCalls (ps : List StreamPart) :
    concatTexts (dropLaterCalls ps) = concatTexts ps :=
  foldl_text_dropLaterCalls2 ps false ""

/-- Scrubbing later function calls keeps the first function call. -/
theorem firstFnCall_dropLaterCalls (ps : List StreamPart) :
    firstFnCall (dropLaterCalls ps) = firstFnCall ps := by
  unfold dropLaterCalls
  induction ps with
  | nil => rfl
  | cons p rest ih =>
      cases hfc : p.functionCall with
      | some fc =>
          simp only [dropLaterCalls2, hfc, Bool.false_eq_true, if_false]
          simp only [firstFnCall, List.findSome?_cons, hfc]
      | none =>
          simp only [dropLaterCalls2, hfc]
          simp only [firstFnCall, List.findSome?_cons, hfc]
          exact ih

/-- The loop's accumulator field `audioText` is never assigned. -/
theorem loopGo_audioText (oracle : Nat → List StreamPart) (tools : String → Option ToolFn) :
    ∀ (fuel : Nat) (s : Session) (depth : Nat) (r : AgentResponse),
    (loopGo oracle tools fuel s depth r).1.audioText = r.audioText := by
  intro fuel
  induction fuel with
  | zero => intro s depth r; rfl
  | succ n ih =>
      intro s depth r
      simp only [loopGo]
      by_cases hd : MAX_DEPTH ≤ depth
      · rw [if_pos hd]
      · rw [if_neg hd]
        cases hfc : firstFnCall (oracle depth) with
        | some fc =>
            dsimp only
            rw [ih]
        | none => rfl

-- ─── C5: single function call per round ───

/-- C5: the agent loop behaves identically on a model stream and on the
same stream with every function call after the first of each round removed:
only the first function call seen in a round is executed, and the later ones
cause no tool execution, no history append and no session or accumulator
change. -/
theorem C5_first_call_only (oracle : Nat → List StreamPart) (tools : String → Option ToolFn) :
    ∀ (fuel : Nat) (s : Session) (depth : Nat) (r : AgentResponse),
    loopGo oracle tools fuel s depth r
      = loopGo (fun d => dropLaterCalls (oracle d)) tools fuel s depth r := by
  intro fuel
  induction fuel with
  | zero => intro s depth r; rfl
  | succ n ih =>
      intro s depth r
      simp only [loopGo]
      by_cases hd : MAX_DEPTH ≤ depth
      · rw [if_pos hd, if_pos hd]
      · rw [if_neg hd, if_neg hd]
        rw [firstFnCall_dropLaterCalls, concatTexts_dropLaterCalls]
        cases hfc : firstFnCall (oracle depth) with
        | some fc =>
            dsimp only
            exact ih _ _ _
        | none => rfl

-- ─── C10: the stray text prefix and the never-assigned audioText ───

/-- C10: in the current loop the text accumulator is initialized to the
literal `"limitReachedAudio"`, so a round in which the model emits no
function call appends a model turn equal to that literal concatenated with
the streamed text (first conjunct, which also exhibits the cleared
`matchedAction` and the unchanged accumulator); and the `AgentResponse`
returned by `resolve` always has `audioText = ""`, since no branch of the
loop assigns that field (second conjunct). -/
theorem C10_limit_reached_prefix_and_audioText :
    (∀ (oracle : Nat → List StreamPart) (tools : String → Option ToolFn)
       (fuel : Nat) (s : Session) (depth : Nat) (r : AgentResponse),
      ¬ MAX_DEPTH ≤ depth → firstFnCall (oracle depth) = none →
      loopGo oracle tools (fuel + 1) s depth r
        = (r, { s with
            history := s.history ++
              [⟨Role.model,
                [HistPart.text ("limitReachedAudio" ++ concatTexts (oracle depth))]⟩]
            matchedAction := none }))
    ∧ (∀ (oracle : Nat → List StreamPart) (tools : String → Option ToolFn) (s : Session),
        (resolve oracle tools s).1.audioText = "") := by
  constructor
  · intro oracle tools fuel s depth r hd hfc
    simp only [loopGo]
    rw [if_neg hd, hfc]
  · intro oracle tools s
    exact loopGo_audioText oracle tools (MAX_DEPTH + 1) s 0 initialResponse

/-- C10 witness: a text-only model turn on a fresh session appends the
prefixed text and returns the untouched accumulator (whose `audioText` is
empty). -/
theorem C10_limit_reached_prefix_witness :
    loopGo oracleNoCall noTools (15 + 1) demoSession 0 initialResponse
      = (initialResponse, { demoSession with
          history := demoSession.history ++
            [⟨Role.model,
              [HistPart.text ("limitReachedAudio" ++ concatTexts (oracleNoCall 0))]⟩]
          matchedAction := none }) :=
  C10_limit_reached_prefix_and_audioText.1 oracleNoCall noTools 15 demoSession 0
    initialResponse (by decide) rfl

-- ─── C9: the session's tool set only grows ───

/-- Under a tool interpretation that never touches `activeTools` (true of
every framework tool handler: they mutate only `activeFeature` and
`matchedAction`), the loop only ever appends to the session's tool set,
without introducing duplicates. -/
theorem loopGo_activeTools (oracle : Nat → List StreamPart) (tools : String → Option ToolFn)
    (htools : ∀ (n : String) (f : ToolFn) (a : Args) (sess : Session),
      tools n = some f → ((f a sess).2).activeTools = sess.activeTools) :
    ∀ (fuel : Nat) (s : Session) (depth : Nat) (r : AgentResponse),
    (∀ t ∈ s.activeTools, t ∈ ((loopGo oracle tools fuel s depth r).2).activeTools)
    ∧ (s.activeTools.Nodup → ((loopGo oracle tools fuel s depth r).2).activeTools.Nodup) := by
  intro fuel
  induction fuel with
  | zero => intro s depth r; exact ⟨fun t ht => ht, fun h => h⟩
  | succ n ih =>
      intro s depth r
      simp only [loopGo]
      by_cases hd : MAX_DEPTH ≤ depth
      · rw [if_pos hd]; exact ⟨fun t ht => ht, fun h => h⟩
      · rw [if_neg hd]
        cases hfc : firstFnCall (oracle depth) with
        | none => exact ⟨fun t ht => ht, fun h => h⟩
        | some fc =>
            dsimp only
            cases htool : tools fc.name with
            | none =>
                dsimp only
                exact ⟨fun t ht => (ih _ _ _).1 t ht, fun h => (ih _ _ _).2 h⟩
            | some f =>
                have h2 : ((f (fc.args.getD [])
                    { s with history := s.history ++
                        [⟨Role.model, [HistPart.functionCall fc]⟩] }).2).activeTools
                    = s.activeTools := htools _ f _ _ htool
                dsimp only
                constructor
                · intro t ht
                  refine (ih _ _ _).1 t ?_
                  dsimp only
                  split
                  · dsimp only
                    refine mem_addToolNames _ _ t ?_
                    rw [activeTools_if_activeFeature, h2]
                    exact ht
                  · rw [activeTools_if_activeFeature, h2]
                    exact ht
                · intro hnd
                  refine (ih _ _ _).2 ?_
                  dsimp only
                  split
                  · dsimp only
                    refine nodup_addToolNames _ _ ?_
                    rw [activeTools_if_activeFeature, h2]
                    exact hnd
                  · rw [activeTools_if_activeFeature, h2]
                    exact hnd

/-- C9: a fresh session's tool set is exactly the base tool set (first
conjunct), and — as long as the resolved tool handlers do not themselves
rewrite `activeTools`, which none of the repository's handlers do — an
agent-loop run only grows the set (every previously active name survives)
and keeps it duplicate-free (second conjunct). -/
theorem C9_active_tools_monotone :
    (∀ (id : String) (baseTools : List String) (u : Option UserData)
       (dp loc : Option Json),
      (newSession id baseTools u dp loc).activeTools = baseTools)
    ∧ (∀ (oracle : Nat → List StreamPart) (tools : String → Option ToolFn),
        (∀ (n : String) (f : ToolFn) (a : Args) (sess : Session),
          tools n = some f → ((f a sess).2).activeTools = sess.activeTools) →
        ∀ (fuel : Nat) (s : Session) (depth : Nat) (r : AgentResponse),
        (∀ t ∈ s.activeTools, t ∈ ((loopGo oracle tools fuel s depth r).2).activeTools)
        ∧ (s.activeTools.Nodup →
            ((loopGo oracle tools fuel s depth r).2).activeTools.Nodup)) :=
  ⟨fun _ _ _ _ _ => rfl,
   fun oracle tools htools fuel s depth r => loopGo_activeTools oracle tools htools fuel s depth r⟩

/-- C9 witness: on a fresh session driven through a full run, the base tool
`fetchKnowledgeBase` is still active afterwards. -/
theorem C9_active_tools_monotone_witness :
    "fetchKnowledgeBase" ∈
      ((loopGo demoOracle noTools 16 demoSession 0 initialResponse).2).activeTools :=
  (C9_active_tools_monotone.2 demoOracle noTools
      (fun _ _ _ _ h => nomatch h) 16 demoSession 0 initialResponse).1
    "fetchKnowledgeBase" (by decide)

-- ─── C1: depth bound and the depth-exceeded result ───

/-- When every model response carries a function call and tool handlers do
not rewrite the history (true of every framework handler), each round
appends exactly two history turns, so a run whose fuel reaches the depth
guard exactly appends `2 * (MAX_DEPTH - depth)` turns and returns with
`audioName` cleared to the empty string. -/
theorem loopGo_depth_exact (oracle : Nat → List StreamPart) (tools : String → Option ToolFn)
    (hcall : ∀ d, (firstFnCall (oracle d)).isSome)
    (hhist : ∀ (n : String) (f : ToolFn) (a : Args) (sess : Session),
      tools n = some f → ((f a sess).2).history = sess.history) :
    ∀ (fuel depth : Nat) (s : Session) (r : AgentResponse),
    depth + fuel = MAX_DEPTH + 1 →
    (((loopGo oracle tools fuel s depth r).2).history.length
      = s.history.length + 2 * (MAX_DEPTH - depth))
    ∧ ((loopGo oracle tools fuel s depth r).1.audioName = "") := by
  intro fuel
  induction fuel with
  | zero =>
      intro depth s r hsum
      refine ⟨?_, rfl⟩
      show s.history.length = s.history.length + 2 * (MAX_DEPTH - depth)
      omega
  | succ n ih =>
      intro depth s r hsum
      simp only [loopGo]
      by_cases hd : MAX_DEPTH ≤ depth
      · rw [if_pos hd]
        refine ⟨?_, rfl⟩
        show s.history.length = s.history.length + 2 * (MAX_DEPTH - depth)
        omega
      · rw [if_neg hd]
        obtain ⟨fc, hfc⟩ := Option.isSome_iff_exists.mp (hcall depth)
        rw [hfc]
        dsimp only
        cases htool : tools fc.name with
        | none =>
            dsimp only
            constructor
            · rw [(ih (depth + 1) _ _ (by omega)).1]
              simp only [strTruthy, Option.isSome_none, Bool.false_eq_true, if_false,
                List.length_append, List.length_cons, List.length_nil]
              omega
            · exact (ih (depth + 1) _ _ (by omega)).2
        | some f =>
            have h2 : ((f (fc.args.getD [])
                { s with history := s.history ++
                    [⟨Role.model, [HistPart.functionCall fc]⟩] }).2).history
                = s.history ++ [⟨Role.model, [HistPart.functionCall fc]⟩] :=
              hhist _ f _ _ htool
            dsimp only
            constructor
            · rw [(ih (depth + 1) _ _ (by omega)).1]
              rw [history_if_activeTools, history_if_activeFeature, h2]
              simp only [List.length_append, List.length_cons, List.length_nil]
              omega
            · exact (ih (depth + 1) _ _ (by omega)).2

/-- When every model response carries a function call that is not a
`respondToUser` call, the older loop always falls off the depth guard and
answers with the canned Hinglish apology. -/
theorem loopV1Go_canned (oracle : Nat → List StreamPart) (tools : String → Option ToolFn)
    (hcall : ∀ d, (firstFnCall (oracle d)).isSome)
    (hname : ∀ d fc, firstFnCall (oracle d) = some fc → fc.name ≠ "respondToUser") :
    ∀ (fuel depth : Nat) (s : Session), MAX_DEPTH + 1 ≤ depth + fuel →
    (loopV1Go oracle tools fuel s depth).1 = cannedDepthResponse := by
  intro fuel
  induction fuel with
  | zero => intro depth s _; rfl
  | succ n ih =>
      intro depth s hsum
      simp only [loopV1Go]
      by_cases hd : MAX_DEPTH ≤ depth
      · rw [if_pos hd]
      · rw [if_neg hd]
        obtain ⟨fc, hfc⟩ := Option.isSome_iff_exists.mp (hcall depth)
        rw [hfc]
        dsimp only
        rw [if_neg (hname depth fc hfc)]
        cases htool : tools fc.name <;>
          exact ih (depth + 1) _ (by omega)

/-- C1 (amended): with a model that returns a (non-`respondToUser`) function
call every round and handlers that do not rewrite the history, both loops
terminate after exactly `MAX_DEPTH` (15) rounds — the current loop's run
appends exactly `2 * MAX_DEPTH` history turns (one model call plus one
function response per round) and returns the accumulated response with
`audioName` cleared to the empty string, not a canned apology; the canned
Hinglish apology with action `none` is produced at depth exceedance only by
the older `respondToUser`-protocol loop of src/unnamed/part_002. -/
theorem C1_depth_bound (oracle : Nat → List StreamPart) (tools : String → Option ToolFn)
    (s : Session)
    (hcall : ∀ d, (firstFnCall (oracle d)).isSome)
    (hhist : ∀ (n : String) (f : ToolFn) (a : Args) (sess : Session),
      tools n = some f → ((f a sess).2).history = sess.history)
    (hname : ∀ d fc, firstFnCall (oracle d) = some fc → fc.name ≠ "respondToUser") :
    (((resolve oracle tools s).2).history.length = s.history.length + 2 * MAX_DEPTH)
    ∧ ((resolve oracle tools s).1.audioName = "")
    ∧ ((resolveV1 oracle tools s).1 = cannedDepthResponse) := by
  obtain ⟨h1, h2⟩ := loopGo_depth_exact oracle tools hcall hhist (MAX_DEPTH + 1) 0 s
    initialResponse (by omega)
  refine ⟨?_, h2, loopV1Go_canned oracle tools hcall hname (MAX_DEPTH + 1) 0 s (by omega)⟩
  simpa using h1

/-- C1 (counterexample to the claim as stated): driving the current loop
(src/src/agent.ts) to depth exceedance from a fresh session returns the
untouched initial accumulator — every string field empty and no data — i.e.
an empty result, not a canned apology/fallback response. -/
theorem C1_depth_counterexample :
    (resolve demoOracle noTools demoSession).1 = initialResponse := by
  rfl

/-- C1 witness: the depth-bound theorem applied to the always-calling model
on a fresh session. -/
theorem C1_depth_bound_witness :
    (((resolve demoOracle noTools demoSession).2).history.length
      = demoSession.history.length + 2 * MAX_DEPTH)
    ∧ ((resolve demoOracle noTools demoSession).1.audioName = "")
    ∧ ((resolveV1 demoOracle noTools demoSession).1 = cannedDepthResponse) :=
  C1_depth_bound demoOracle noTools demoSession
    (fun _ => rfl)
    (fun _ _ _ _ h => nomatch h)
    (fun d fc h => by
      have h2 : ({ name := "searchCabsTool", args := none } : FnCall) = fc :=
        Option.some.inj h
      rw [← h2]
      decide)

end Raahi
